import Mathlib

/-!
Verification development for the `ocrpricer` repository.

The Python sources `scrapper.py` and `region_model.py` are shallowly embedded
below.  Monetary values and coordinates are modelled as exact rationals (`ℚ`)
in the usual decimal reading of the source's numeric literals; Python's
`float` rounding noise is outside the model.  Fallible code paths (Python
exceptions) are modelled with `Option`.
-/

namespace OcrPricer

/-- Python substring containment `needle in hay` on lists of characters. -/
def listContainsSub (needle : List Char) : List Char → Bool
  | [] => needle.isEmpty
  | c :: t => needle.isPrefixOf (c :: t) || listContainsSub needle t

/-- Python's `needle in hay` operator on strings (substring containment). -/
def pyIn (needle hay : String) : Bool :=
  listContainsSub needle.toList hay.toList

/-- Python's `str.lower()` (ASCII case folding, which covers the source's
keyword tests). -/
def pyLower (s : String) : String := String.mk (s.data.map Char.toLower)

/-- Python's whitespace class as used by `str.strip()` and the regex `\s` on
ASCII text. -/
def isSpaceCh (c : Char) : Bool :=
  c = ' ' || c = '\t' || c = '\n' || c = '\r' || c = '\x0b' || c = '\x0c'

/-- Python's `str.strip()`: remove whitespace from both ends. -/
def pyStrip (s : String) : String :=
  String.mk (((s.data.dropWhile isSpaceCh).reverse.dropWhile isSpaceCh).reverse)

/-! ## Region model (`region_model.py`, class `ReferenceModel`) -/

/-- One reference hub of `ReferenceModel.__init__`: coordinates and price index. -/
structure Hub where
  lat : ℚ
  lon : ℚ
  index : ℚ
deriving DecidableEq

/-- The fixed hub table of `ReferenceModel.__init__` (`self.hubs`), in insertion
order of the Python dict. -/
def hubs : List (String × Hub) :=
  [("miami", ⟨25.7617, -80.1918, 1.15⟩),
   ("orlando", ⟨28.5383, -81.3792, 1.02⟩),
   ("tampa", ⟨27.9506, -82.4572, 1.03⟩),
   ("jacksonville", ⟨30.3322, -81.6557, 0.95⟩),
   ("tallahassee", ⟨30.4383, -84.2807, 0.93⟩),
   ("key west", ⟨24.5551, -81.7800, 1.25⟩)]

/-- The `known_others` table of `ReferenceModel.get_coordinates`. -/
def known_others : List (String × (ℚ × ℚ)) :=
  [("naples", (26.1420, -81.7948)),
   ("sarasota", (27.3364, -82.5307)),
   ("gainesville", (29.6516, -82.3248)),
   ("pensacola", (30.4213, -87.2169)),
   ("clearwater", (27.9659, -82.8001)),
   ("fort lauderdale", (26.1224, -80.1373))]

/-- Field `self.florida_center` of `ReferenceModel.__init__` (Orlando's coordinates). -/
def florida_center : ℚ × ℚ := (28.5383, -81.3792)

/-- Method `ReferenceModel.get_coordinates`: hub table, then `known_others`, then the
Florida center default. -/
def get_coordinates (city : String) : ℚ × ℚ :=
  let c := pyStrip (pyLower city)
  match hubs.lookup c with
  | some h => (h.lat, h.lon)
  | none =>
    match known_others.lookup c with
    | some p => p
    | none => florida_center

/-- The accumulation loop of `ReferenceModel.get_regional_multiplier`.  The
source computes `dist = sqrt((lat-h_lat)^2 + (lon-h_lon)^2)` and
`weight = 1 / dist ** 2`; we work directly with the squared distance `dsq`
(`dist == 0` iff `dsq = 0`, and `1 / dist ** 2 = 1 / dsq`). -/
def idwLoop (lat lon : ℚ) : List (String × Hub) → ℚ → ℚ → ℚ
  | [], total_weight, weighted_index => weighted_index / total_weight
  | (_, h) :: rest, total_weight, weighted_index =>
    if (lat - h.lat) ^ 2 + (lon - h.lon) ^ 2 = 0 then h.index
    else
      idwLoop lat lon rest
        (total_weight + 1 / ((lat - h.lat) ^ 2 + (lon - h.lon) ^ 2))
        (weighted_index + h.index * (1 / ((lat - h.lat) ^ 2 + (lon - h.lon) ^ 2)))

/-- Method `ReferenceModel.get_regional_multiplier` on an explicit coordinate pair. -/
def get_regional_multiplier (lat lon : ℚ) : ℚ :=
  idwLoop lat lon hubs 0 0

/-- Method `ReferenceModel.get_regional_multiplier` on a city name (coordinates
resolved through `get_coordinates`). -/
def get_regional_multiplier_city (city : String) : ℚ :=
  let p := get_coordinates city
  get_regional_multiplier p.1 p.2

lemma idwLoop_bounds (lat lon : ℚ) (hs : List (String × Hub)) (tw wi : ℚ)
    (hidx : ∀ x ∈ hs, (0.93 : ℚ) ≤ x.2.index ∧ x.2.index ≤ 1.25)
    (htw : 0 < tw) (hlo : 0.93 * tw ≤ wi) (hhi : wi ≤ 1.25 * tw) :
    0.93 ≤ idwLoop lat lon hs tw wi ∧ idwLoop lat lon hs tw wi ≤ 1.25 := by
  induction hs generalizing tw wi with
  | nil =>
    simp only [idwLoop]
    constructor
    · rw [le_div_iff₀ htw]; linarith
    · rw [div_le_iff₀ htw]; linarith
  | cons x rest ih =>
    obtain ⟨nm, h⟩ := x
    have hx : (0.93 : ℚ) ≤ h.index ∧ h.index ≤ 1.25 := hidx (nm, h) (by simp)
    simp only [idwLoop]
    split
    · exact hx
    · rename_i hne
      have hdsq : 0 < (lat - h.lat) ^ 2 + (lon - h.lon) ^ 2 := by
        rcases lt_or_eq_of_le (by positivity :
            (0 : ℚ) ≤ (lat - h.lat) ^ 2 + (lon - h.lon) ^ 2) with hlt | heq
        · exact hlt
        · exact absurd heq.symm hne
      have hw : 0 < 1 / ((lat - h.lat) ^ 2 + (lon - h.lon) ^ 2) := by positivity
      have hlo' := mul_le_mul_of_nonneg_right hx.1 hw.le
      have hhi' := mul_le_mul_of_nonneg_right hx.2 hw.le
      refine ih _ _ (fun y hy => hidx y (List.mem_cons_of_mem _ hy))
        (by linarith) (by linarith) (by linarith)

lemma idwLoop_start_bounds (lat lon : ℚ) (x : String × Hub) (rest : List (String × Hub))
    (hidx : ∀ y ∈ x :: rest, (0.93 : ℚ) ≤ y.2.index ∧ y.2.index ≤ 1.25) :
    0.93 ≤ idwLoop lat lon (x :: rest) 0 0 ∧ idwLoop lat lon (x :: rest) 0 0 ≤ 1.25 := by
  obtain ⟨nm, h⟩ := x
  have hx : (0.93 : ℚ) ≤ h.index ∧ h.index ≤ 1.25 := hidx (nm, h) (by simp)
  simp only [idwLoop]
  split
  · exact hx
  · rename_i hne
    have hdsq : 0 < (lat - h.lat) ^ 2 + (lon - h.lon) ^ 2 := by
      rcases lt_or_eq_of_le (by positivity :
          (0 : ℚ) ≤ (lat - h.lat) ^ 2 + (lon - h.lon) ^ 2) with hlt | heq
      · exact hlt
      · exact absurd heq.symm hne
    have hw : 0 < 1 / ((lat - h.lat) ^ 2 + (lon - h.lon) ^ 2) := by positivity
    have hlo' := mul_le_mul_of_nonneg_right hx.1 hw.le
    have hhi' := mul_le_mul_of_nonneg_right hx.2 hw.le
    refine idwLoop_bounds lat lon rest _ _
      (fun y hy => hidx y (List.mem_cons_of_mem _ hy)) ?_ ?_ ?_
    · linarith
    · linarith
    · linarith

lemma get_regional_multiplier_bounds (lat lon : ℚ) :
    0.93 ≤ get_regional_multiplier lat lon ∧ get_regional_multiplier lat lon ≤ 1.25 := by
  rw [get_regional_multiplier, hubs]
  refine idwLoop_start_bounds lat lon _ _ ?_
  simp only [List.forall_mem_cons, List.forall_mem_nil]
  norm_num

/-- C10: for every input (any city string, or any coordinate pair),
`get_regional_multiplier` returns a value in the closed interval
`[0.93, 1.25]` spanned by the reference-hub indices, and at an exact hub
coordinate it returns that hub's index directly. -/
theorem C10_regional_multiplier_bounded :
    (∀ lat lon : ℚ,
      0.93 ≤ get_regional_multiplier lat lon ∧ get_regional_multiplier lat lon ≤ 1.25) ∧
    (∀ city : String,
      0.93 ≤ get_regional_multiplier_city city ∧ get_regional_multiplier_city city ≤ 1.25) ∧
    (∀ x ∈ hubs, get_regional_multiplier x.2.lat x.2.lon = x.2.index) := by
  refine ⟨fun lat lon => get_regional_multiplier_bounds lat lon,
          fun city => get_regional_multiplier_bounds _ _, ?_⟩
  simp only [hubs, List.forall_mem_cons]
  refine ⟨?_, ?_, ?_, ?_, ?_, ?_, List.forall_mem_nil _⟩ <;>
    norm_num [get_regional_multiplier, hubs, idwLoop]

/-- Witness for C10: concrete evaluations — an off-hub coordinate stays inside
the bound, and Miami's exact coordinates return Miami's index. -/
theorem C10_regional_multiplier_bounded_witness :
    (0.93 ≤ get_regional_multiplier 26 (-81) ∧ get_regional_multiplier 26 (-81) ≤ 1.25) ∧
    get_regional_multiplier 25.7617 (-80.1918) = 1.15 :=
  ⟨C10_regional_multiplier_bounded.1 26 (-81),
   C10_regional_multiplier_bounded.2.2 ("miami", ⟨25.7617, -80.1918, 1.15⟩)
     (by simp [hubs])⟩

/-! ## Search-term expansion (`scrapper.py`, `fetch_price_data` lines 337-364) -/

/-- The `search_terms` list built by `RealTimeScraper.fetch_price_data` before
the term loop: the original name first, then keyword-driven variants. -/
def buildSearchTerms (item_name : String) : List String :=
  let il := pyLower item_name
  let ts := [item_name]
  let ts :=
    if (pyIn "coke" il || pyIn "coca cola" il || pyIn "cola" il) && !pyIn "coca cola" il then
      (if !(pyIn "pack" il || pyIn "case" il || pyIn "12" il || pyIn "24" il) then
        ts ++ ["coca cola 20 oz", "coca cola can", "coca cola bottle"]
      else ts) ++ ["coca cola", "coca cola 2 liter"]
    else if pyIn "coca cola" il then
      ts ++ ["coca cola 2 liter", "coca cola 20 oz", "coca cola can", "coke"]
    else if pyIn "soda" il || pyIn "pop" il then
      ts ++ ["soda 2 liter"]
    else ts
  let ts :=
    if pyIn "chip" il then
      (if !pyIn "bag" il && !pyIn "family" il then ts ++ [item_name ++ " bag"] else ts)
        ++ ["potato chips"]
    else ts
  let ts :=
    if pyIn "chocolate" il then
      (if !pyIn "bar" il then ts ++ [item_name ++ " bar"] else ts) ++ ["chocolate bar"]
    else ts
  ts

/-- The search terms actually attempted: `search_terms[:3]` (`fetch_price_data`
line 367 caps the term loop at 3 variations). -/
def expandSearchTerms (item_name : String) : List String :=
  (buildSearchTerms item_name).take 3

/-! ## Category filter (`scrapper.py`, `_filter_prices_by_product_type`) -/

/-- Method `RealTimeScraper._filter_prices_by_product_type`: restrict the pool to a
keyword-selected price envelope, falling back to the unfiltered pool whenever a
restriction comes out empty. -/
def filter_prices_by_product_type (prices : List ℚ) (item_name : String) : List ℚ :=
  let il := pyLower item_name
  let filtered :=
    if pyIn "coke" il || pyIn "coca cola" il || pyIn "cola" il || pyIn "soda" il ||
        pyIn "drink" il || pyIn "beverage" il then
      if !(pyIn "pack" il || pyIn "case" il || pyIn "12" il || pyIn "24" il ||
          pyIn "family" il || pyIn "bulk" il) then
        let single := prices.filter (fun p => decide ((0.50 : ℚ) ≤ p ∧ p ≤ 5.00))
        if !single.isEmpty then single else prices
      else prices
    else if pyIn "chip" il then
      let f :=
        if pyIn "family" il || pyIn "large" il then
          prices.filter (fun p => decide ((2.50 : ℚ) ≤ p ∧ p ≤ 10.00))
        else
          prices.filter (fun p => decide ((1.00 : ℚ) ≤ p ∧ p ≤ 7.00))
      if f.isEmpty then prices else f
    else if pyIn "chocolate" il then
      if !(pyIn "pack" il || pyIn "case" il || pyIn "multi" il) then
        let single := prices.filter (fun p => decide ((0.50 : ℚ) ≤ p ∧ p ≤ 5.00))
        if !single.isEmpty then single else prices
      else prices
    else prices
  if !filtered.isEmpty then filtered else prices

/-! ## Aggregation (`scrapper.py`, `fetch_price_data` lines 398-414) -/

/-- Python's `round` on rationals: round half to even (banker's rounding). -/
def roundHalfEven (q : ℚ) : ℤ :=
  if q - ⌊q⌋ < 1/2 then ⌊q⌋
  else if 1/2 < q - ⌊q⌋ then ⌊q⌋ + 1
  else if ⌊q⌋ % 2 = 0 then ⌊q⌋ else ⌊q⌋ + 1

/-- Python's `round(x, 2)` in the exact-decimal model. -/
def roundTo2 (q : ℚ) : ℚ := (roundHalfEven (q * 100) : ℚ) / 100

/-- Line 403: `all_prices.sort()` (ascending). -/
def sorted_pool (pool : List ℚ) : List ℚ := List.insertionSort (· ≤ ·) pool

/-- Lines 404-407: if more than 4 prices, drop `trim = len // 5` from each end
(`all_prices[trim:-trim]`, guarded by `trim > 0`). -/
def trimmed_pool (pool : List ℚ) : List ℚ :=
  if 4 < (sorted_pool pool).length then
    if 0 < (sorted_pool pool).length / 5 then
      ((sorted_pool pool).drop ((sorted_pool pool).length / 5)).take
        ((sorted_pool pool).length - 2 * ((sorted_pool pool).length / 5))
    else sorted_pool pool
  else sorted_pool pool

/-- Lines 402-412: sort, trim, average, round to 2 decimals.  `none` models the
`ZeroDivisionError` Python would raise on an empty list (proved unreachable for
non-empty pools below). -/
def aggregate_pool (pool : List ℚ) : Option ℚ :=
  if (trimmed_pool pool).length = 0 then none
  else some (roundTo2 ((trimmed_pool pool).sum / ((trimmed_pool pool).length : ℚ)))

/-! ## Fetch orchestration (`scrapper.py`, `fetch_price_data` lines 366-414)

The per-source scrapers (`_scrape_walmart`, `_scrape_target`,
`_scrape_instacart`, `_scrape_publix_api`, `_scrape_google_shopping`) wrap
network and browser calls whose observable result is the list of extracted
candidate prices (empty on any failure: each swallows its exceptions).  They
are modelled as an environment of oracle functions from (term, city) to that
list. -/

/-- Oracle results of the five network scrapers for one run. -/
structure ScrapeEnv where
  walmart : String → String → List ℚ
  target : String → String → List ℚ
  instacart : String → String → List ℚ
  publix : String → List ℚ
  google_shopping : String → String → List ℚ

/-- The inner source loop of `fetch_price_data` (lines 371-386): Walmart,
Target, Instacart, Publix in order, all candidate lists appended. -/
def run_sources (env : ScrapeEnv) (term city : String) : List ℚ :=
  env.walmart term city ++ env.target term city ++ env.instacart term city ++
    env.publix term

/-- The term loop of `fetch_price_data` (lines 367-390): accumulate sources per
term, breaking after any term that brings the pool to 5 or more candidates. -/
def run_terms (env : ScrapeEnv) (city : String) : List String → List ℚ → List ℚ
  | [], acc => acc
  | t :: ts, acc =>
    if 5 ≤ (acc ++ run_sources env t city).length then acc ++ run_sources env t city
    else run_terms env city ts (acc ++ run_sources env t city)

/-- Instrumented term loop: same accumulation, also returning the list of terms
actually attempted, in order. -/
def run_terms_trace (env : ScrapeEnv) (city : String) :
    List String → List ℚ → List ℚ × List String
  | [], acc => (acc, [])
  | t :: ts, acc =>
    if 5 ≤ (acc ++ run_sources env t city).length then (acc ++ run_sources env t city, [t])
    else
      ((run_terms_trace env city ts (acc ++ run_sources env t city)).1,
        t :: (run_terms_trace env city ts (acc ++ run_sources env t city)).2)

/-- The raw pool accumulated by the term loop of `fetch_price_data`. -/
def pool_from_terms (env : ScrapeEnv) (item_name city : String) : List ℚ :=
  run_terms env city (expandSearchTerms item_name) []

/-- Lines 392-395: if the term loop produced nothing, fall back once to
`_scrape_google_shopping` with the original item name; its results become the
pool. -/
def final_pool (env : ScrapeEnv) (item_name city : String) : List ℚ :=
  if (pool_from_terms env item_name city).isEmpty then env.google_shopping item_name city
  else pool_from_terms env item_name city

/-- Method `RealTimeScraper.fetch_price_data`: orchestrate terms and sources, fall
back to the search engine, then filter and aggregate (lines 331-414). -/
def fetch_price_data (env : ScrapeEnv) (item_name city : String) : Option ℚ :=
  if (final_pool env item_name city).isEmpty then none
  else aggregate_pool (filter_prices_by_product_type (final_pool env item_name city) item_name)

/-- Instrumentation of the line-393 guard: the argument pairs of every
`_scrape_google_shopping` invocation `fetch_price_data` makes. -/
def google_shopping_calls (env : ScrapeEnv) (item_name city : String) :
    List (String × String) :=
  if (pool_from_terms env item_name city).isEmpty then [(item_name, city)] else []

lemma buildSearchTerms_cons (n : String) : ∃ r, buildSearchTerms n = n :: r := by
  simp only [buildSearchTerms]
  split_ifs <;> exact ⟨_, rfl⟩

/-- C8: for every item name, search-term expansion (the built variant list
capped to the first 3 entries, as consumed by the term loop) is an ordered
list of 1 to 3 entries whose first entry is the original input name; as a
plain Lean function it is deterministic by construction. -/
theorem C8_expand_deterministic_shape (item_name : String) :
    1 ≤ (expandSearchTerms item_name).length ∧
    (expandSearchTerms item_name).length ≤ 3 ∧
    (expandSearchTerms item_name).head? = some item_name := by
  obtain ⟨r, hr⟩ := buildSearchTerms_cons item_name
  rw [expandSearchTerms, hr]
  refine ⟨?_, ?_, ?_⟩
  · simp [List.length_take]
  · simp [List.length_take]
  · rw [List.take_succ_cons]
    simp

lemma filter_prices_sublist (prices : List ℚ) (item_name : String) :
    (filter_prices_by_product_type prices item_name).Sublist prices := by
  simp only [filter_prices_by_product_type]
  split_ifs <;>
    first
      | exact List.Sublist.refl _
      | exact List.filter_sublist _

lemma filter_prices_ne_nil (prices : List ℚ) (item_name : String) (h : prices ≠ []) :
    filter_prices_by_product_type prices item_name ≠ [] := by
  simp only [filter_prices_by_product_type]
  split_ifs <;> simp_all [List.isEmpty_iff]

/-- C3: for every non-empty pool and every item name, the category-envelope
filter returns a non-empty pool (when an envelope restriction empties the
pool, the original is used instead), and it only ever removes elements, never
invents them. -/
theorem C3_envelope_filter_nonempty :
    ∀ (prices : List ℚ) (item_name : String), prices ≠ [] →
      filter_prices_by_product_type prices item_name ≠ [] ∧
      (filter_prices_by_product_type prices item_name).Sublist prices :=
  fun prices item_name h =>
    ⟨filter_prices_ne_nil prices item_name h, filter_prices_sublist prices item_name⟩

/-- Witness for C3: the beverage envelope (0.50-5.00) rejects 10.50, so the
restriction is empty and the original one-element pool is kept. -/
theorem C3_envelope_filter_nonempty_witness :
    filter_prices_by_product_type [10.50] "coke" ≠ [] ∧
    (filter_prices_by_product_type [10.50] "coke").Sublist [10.50] :=
  C3_envelope_filter_nonempty [10.50] "coke" (List.cons_ne_nil _ _)

lemma sorted_pool_length (pool : List ℚ) : (sorted_pool pool).length = pool.length :=
  List.length_insertionSort _ _

lemma trimmed_pool_eq_of_gt {pool : List ℚ} (h : 4 < pool.length) :
    trimmed_pool pool =
      ((sorted_pool pool).drop (pool.length / 5)).take
        (pool.length - 2 * (pool.length / 5)) := by
  rw [trimmed_pool, sorted_pool_length, if_pos h, if_pos (by omega)]

lemma trimmed_pool_eq_of_le {pool : List ℚ} (h : pool.length ≤ 4) :
    trimmed_pool pool = sorted_pool pool := by
  rw [trimmed_pool, sorted_pool_length, if_neg (by omega)]

lemma trimmed_pool_length (pool : List ℚ) :
    (trimmed_pool pool).length =
      if 4 < pool.length then pool.length - 2 * (pool.length / 5) else pool.length := by
  rcases le_or_lt pool.length 4 with h | h
  · rw [trimmed_pool_eq_of_le h, sorted_pool_length, if_neg (by omega)]
  · rw [trimmed_pool_eq_of_gt h, if_pos h, List.length_take, List.length_drop,
      sorted_pool_length]
    omega

lemma trimmed_pool_length_pos {pool : List ℚ} (h : pool ≠ []) :
    0 < (trimmed_pool pool).length := by
  have hlen : 0 < pool.length := List.length_pos.mpr h
  rw [trimmed_pool_length]
  split <;> omega

/-- C2: aggregation sorts the pool ascending; with `n > 4` elements it removes
exactly `n / 5` elements from each end of the sorted pool and returns the
2-decimal rounding of the arithmetic mean of the remainder; with `1 ≤ n ≤ 4`
nothing is removed and the mean ranges over the full pool. -/
theorem C2_trimmed_mean (pool : List ℚ) :
    List.Sorted (· ≤ ·) (sorted_pool pool) ∧
    (4 < pool.length →
      ∃ pre post,
        sorted_pool pool = pre ++ trimmed_pool pool ++ post ∧
        pre.length = pool.length / 5 ∧ post.length = pool.length / 5 ∧
        (trimmed_pool pool).length = pool.length - 2 * (pool.length / 5) ∧
        aggregate_pool pool =
          some (roundTo2 ((trimmed_pool pool).sum / ((trimmed_pool pool).length : ℚ)))) ∧
    (1 ≤ pool.length → pool.length ≤ 4 →
      trimmed_pool pool = sorted_pool pool ∧
      aggregate_pool pool = some (roundTo2 (pool.sum / (pool.length : ℚ)))) := by
  refine ⟨List.sorted_insertionSort _ _, ?_, ?_⟩
  · intro h
    have hne : pool ≠ [] := by
      intro hnil
      rw [hnil] at h
      simp at h
    have hlenpos := trimmed_pool_length_pos hne
    refine ⟨(sorted_pool pool).take (pool.length / 5),
            (sorted_pool pool).drop (pool.length - pool.length / 5), ?_, ?_, ?_, ?_, ?_⟩
    · rw [trimmed_pool_eq_of_gt h]
      conv_lhs => rw [← List.take_append_drop (pool.length / 5) (sorted_pool pool)]
      rw [List.append_assoc]
      congr 1
      conv_lhs =>
        rw [← List.take_append_drop (pool.length - 2 * (pool.length / 5))
          ((sorted_pool pool).drop (pool.length / 5))]
      rw [List.drop_drop]
      congr 2
      omega
    · rw [List.length_take, sorted_pool_length]
      omega
    · rw [List.length_drop, sorted_pool_length]
      omega
    · rw [trimmed_pool_length, if_pos h]
    · rw [aggregate_pool, if_neg (by omega)]
  · intro h1 h4
    have heq := trimmed_pool_eq_of_le h4
    have hsum : (sorted_pool pool).sum = pool.sum :=
      (List.perm_insertionSort (· ≤ ·) pool).sum_eq
    refine ⟨heq, ?_⟩
    rw [aggregate_pool, if_neg (by rw [trimmed_pool_length, if_neg (by omega)]; omega),
      heq, hsum, sorted_pool_length]

/-- Witness for C2: the six-element pool `[1..6]` is trimmed by one from each
end, and the two-element pool `[1, 2]` is averaged whole. -/
theorem C2_trimmed_mean_witness :
    (∃ pre post,
      sorted_pool [1, 2, 3, 4, 5, 6] = pre ++ trimmed_pool [1, 2, 3, 4, 5, 6] ++ post ∧
      pre.length = 1 ∧ post.length = 1 ∧
      (trimmed_pool [(1 : ℚ), 2, 3, 4, 5, 6]).length = 4 ∧
      aggregate_pool [1, 2, 3, 4, 5, 6] =
        some (roundTo2 ((trimmed_pool [(1 : ℚ), 2, 3, 4, 5, 6]).sum /
          ((trimmed_pool [(1 : ℚ), 2, 3, 4, 5, 6]).length : ℚ)))) ∧
    (trimmed_pool [(1 : ℚ), 2] = sorted_pool [1, 2] ∧
      aggregate_pool [1, 2] = some (roundTo2 (([(1 : ℚ), 2]).sum / 2))) :=
  ⟨(C2_trimmed_mean [1, 2, 3, 4, 5, 6]).2.1 (by simp),
   (C2_trimmed_mean [1, 2]).2.2 (by simp) (by simp)⟩

lemma run_terms_trace_fst (env : ScrapeEnv) (city : String) :
    ∀ (ts : List String) (acc : List ℚ),
      (run_terms_trace env city ts acc).1 = run_terms env city ts acc := by
  intro ts
  induction ts with
  | nil => intro acc; rfl
  | cons t ts ih =>
    intro acc
    rw [run_terms_trace, run_terms]
    by_cases h5 : 5 ≤ (acc ++ run_sources env t city).length
    · rw [if_pos h5, if_pos h5]
    · rw [if_neg h5, if_neg h5, ih]

lemma run_terms_nil_all_attempted (env : ScrapeEnv) (city : String) :
    ∀ (ts : List String) (acc : List ℚ), run_terms env city ts acc = [] →
      (run_terms_trace env city ts acc).2.length = ts.length := by
  intro ts
  induction ts with
  | nil => intro acc _; rfl
  | cons t ts ih =>
    intro acc hnil
    rw [run_terms] at hnil
    rw [run_terms_trace]
    by_cases h5 : 5 ≤ (acc ++ run_sources env t city).length
    · rw [if_pos h5] at hnil
      rw [hnil] at h5
      simp at h5
    · rw [if_neg h5] at hnil
      rw [if_neg h5]
      simp [ih _ hnil]

lemma final_pool_empty_iff (env : ScrapeEnv) (item_name city : String) :
    final_pool env item_name city = [] ↔
      (pool_from_terms env item_name city = [] ∧
        env.google_shopping item_name city = []) := by
  rw [final_pool]
  by_cases hp : (pool_from_terms env item_name city).isEmpty
  · rw [if_pos hp]
    rw [List.isEmpty_iff] at hp
    simp [hp]
  · rw [if_neg hp]
    rw [List.isEmpty_iff] at hp
    simp [hp]

lemma aggregate_pool_isSome {pool : List ℚ} (h : pool ≠ []) :
    aggregate_pool pool =
      some (roundTo2 ((trimmed_pool pool).sum / ((trimmed_pool pool).length : ℚ))) := by
  have := trimmed_pool_length_pos h
  rw [aggregate_pool, if_neg (by omega)]

/-- C1: the discovery run returns `none` precisely when the raw pool is still
empty after every term, every source and the final search-engine fallback;
every non-empty pool yields a numeric result. -/
theorem C1_none_iff_pool_empty (env : ScrapeEnv) (item_name city : String) :
    fetch_price_data env item_name city = none ↔
      (pool_from_terms env item_name city = [] ∧
        env.google_shopping item_name city = []) := by
  rw [← final_pool_empty_iff, fetch_price_data]
  by_cases h : (final_pool env item_name city).isEmpty
  · rw [if_pos h]
    rw [List.isEmpty_iff] at h
    simp [h]
  · rw [if_neg h]
    rw [List.isEmpty_iff] at h
    have hfne := filter_prices_ne_nil _ item_name h
    rw [aggregate_pool_isSome hfne]
    simp [h]

/-- C6: the search-engine fallback is invoked at most once per query, always
with the original item name, and only when the pool is still empty — which can
only happen after every search term was attempted; its results then become the
pool. -/
theorem C6_fallback_policy (env : ScrapeEnv) (item_name city : String) :
    (google_shopping_calls env item_name city).length ≤ 1 ∧
    (∀ c ∈ google_shopping_calls env item_name city,
      c = (item_name, city) ∧ pool_from_terms env item_name city = []) ∧
    (pool_from_terms env item_name city = [] →
      final_pool env item_name city = env.google_shopping item_name city ∧
      (run_terms_trace env city (expandSearchTerms item_name) []).2.length =
        (expandSearchTerms item_name).length) ∧
    (pool_from_terms env item_name city ≠ [] →
      final_pool env item_name city = pool_from_terms env item_name city ∧
      google_shopping_calls env item_name city = []) := by
  refine ⟨?_, ?_, ?_, ?_⟩
  · rw [google_shopping_calls]
    split <;> simp
  · intro c hc
    rw [google_shopping_calls] at hc
    rcases hq : (pool_from_terms env item_name city).isEmpty with hF | hT
    · rw [if_neg (by rw [hq]; exact Bool.false_ne_true)] at hc
      simp at hc
    · rw [if_pos hq] at hc
      rw [List.isEmpty_iff] at hq
      simp at hc
      exact ⟨hc, hq⟩
  · intro hempty
    constructor
    · rw [final_pool, if_pos (by rw [List.isEmpty_iff]; exact hempty)]
    · exact run_terms_nil_all_attempted env city _ _ hempty
  · intro hne
    have hq : (pool_from_terms env item_name city).isEmpty = false := by
      rw [← Bool.not_eq_true, List.isEmpty_iff]
      exact hne
    constructor
    · rw [final_pool, hq]
      simp
    · rw [google_shopping_calls, hq]
      simp

/-- The raw pool accumulated after the first `j` search terms of a query (in
attempt order), before any later term runs. -/
def pool_after_terms (env : ScrapeEnv) (city : String) (terms : List String) (j : ℕ) :
    List ℚ :=
  (terms.take j).flatMap (fun t => run_sources env t city)

lemma run_terms_trace_pool_lt (env : ScrapeEnv) (city : String) :
    ∀ (ts : List String) (acc : List ℚ) (j : ℕ), 0 < j →
      j < (run_terms_trace env city ts acc).2.length →
      (acc ++ (ts.take j).flatMap (fun t => run_sources env t city)).length < 5 := by
  intro ts
  induction ts with
  | nil =>
    intro acc j _ hlt
    simp [run_terms_trace] at hlt
  | cons t ts ih =>
    intro acc j hj hlt
    rw [run_terms_trace] at hlt
    by_cases h5 : 5 ≤ (acc ++ run_sources env t city).length
    · rw [if_pos h5] at hlt
      simp at hlt
      omega
    · rw [if_neg h5] at hlt
      simp only [List.length_cons] at hlt
      rcases Nat.lt_or_ge j 2 with h2 | h2
      · have hj1 : j = 1 := by omega
        subst hj1
        simpa using h5
      · have hstep := ih (acc ++ run_sources env t city) (j - 1) (by omega) (by omega)
        have hj1 : j = (j - 1) + 1 := by omega
        rw [hj1, List.take_succ_cons]
        simpa [List.append_assoc] using hstep

/-- C7: the term loop never starts a new search term while the accumulated
pool already holds at least 5 candidates — every attempted term saw a pool of
fewer than 5 candidates when it started. -/
theorem C7_early_exit (env : ScrapeEnv) (item_name city : String) (j : ℕ)
    (hj : j < (run_terms_trace env city (expandSearchTerms item_name) []).2.length) :
    (pool_after_terms env city (expandSearchTerms item_name) j).length < 5 := by
  rcases Nat.eq_zero_or_pos j with rfl | hpos
  · simp [pool_after_terms]
  · have := run_terms_trace_pool_lt env city (expandSearchTerms item_name) [] j hpos hj
    simpa [pool_after_terms] using this

/-- Test environment in which every primary source is dry and the search
engine knows one price. -/
def envDry : ScrapeEnv :=
  ⟨fun _ _ => [], fun _ _ => [], fun _ _ => [], fun _ => [], fun _ _ => [2]⟩

/-- Test environment in which Walmart returns three candidates per term. -/
def envThree : ScrapeEnv :=
  ⟨fun _ _ => [1, 2, 3], fun _ _ => [], fun _ _ => [], fun _ => [], fun _ _ => []⟩

/-- Witness for C6: with every primary source dry, the fallback's results
become the pool and all expanded terms were attempted first. -/
theorem C6_fallback_policy_witness :
    final_pool envDry "milk" "miami" = envDry.google_shopping "milk" "miami" ∧
    (run_terms_trace envDry "miami" (expandSearchTerms "milk") []).2.length =
      (expandSearchTerms "milk").length :=
  (C6_fallback_policy envDry "milk" "miami").2.2.1 (by decide)

/-- Witness for C7: querying "coke" against `envThree` attempts a second term
(the pool held only 3 candidates after the first), never a third. -/
theorem C7_early_exit_witness :
    (pool_after_terms envThree "tampa" (expandSearchTerms "coke") 1).length < 5 :=
  C7_early_exit envThree "coke" "tampa" 1 (by decide)

/-- C5: scenario A of the spec — pool `[1.89, 1.95, 1.99, 2.05, 2.10, 10.50]`
for "coke" (beverage, single-serving envelope 0.50-5.00): filtering removes
10.50, trimming the 5-element pool removes one element from each end, and the
rounded mean of `[1.95, 1.99, 2.05]` is 2.00. -/
theorem C5_scenario_beverage :
    filter_prices_by_product_type [1.89, 1.95, 1.99, 2.05, 2.10, 10.50] "coke"
      = [1.89, 1.95, 1.99, 2.05, 2.10] ∧
    trimmed_pool [1.89, 1.95, 1.99, 2.05, 2.10] = [1.95, 1.99, 2.05] ∧
    aggregate_pool (filter_prices_by_product_type
      [1.89, 1.95, 1.99, 2.05, 2.10, 10.50] "coke") = some 2.00 := by
  have hcoke : pyIn "coke" (pyLower "coke") = true := by decide
  have hpack : pyIn "pack" (pyLower "coke") = false := by decide
  have hcase : pyIn "case" (pyLower "coke") = false := by decide
  have h12 : pyIn "12" (pyLower "coke") = false := by decide
  have h24 : pyIn "24" (pyLower "coke") = false := by decide
  have hfam : pyIn "family" (pyLower "coke") = false := by decide
  have hbulk : pyIn "bulk" (pyLower "coke") = false := by decide
  have h1 : filter_prices_by_product_type [1.89, 1.95, 1.99, 2.05, 2.10, 10.50] "coke"
      = [1.89, 1.95, 1.99, 2.05, 2.10] := by
    norm_num [filter_prices_by_product_type, List.filter,
      hcoke, hpack, hcase, h12, h24, hfam, hbulk]
  have h2 : trimmed_pool [1.89, 1.95, 1.99, 2.05, 2.10] = [1.95, 1.99, 2.05] := by
    norm_num [trimmed_pool, sorted_pool, List.insertionSort, List.orderedInsert]
  refine ⟨h1, h2, ?_⟩
  rw [h1, aggregate_pool, h2]
  norm_num [roundTo2, roundHalfEven]

/-! ## Price extraction (`scrapper.py`, `_extract_prices_from_soup`)

The three layers of `_extract_prices_from_soup` work on (1) the texts of the
elements matched by each of 9 fixed selectors, (2) the parsed `ld+json`
scripts, (3) the page's full text.  A parsed page is modelled by those three
observables.  The two regular expressions are implemented operationally below;
both are deterministic (greedy with no observable backtracking, as analysed
per pattern). -/

/-- ASCII decimal digit, the `\d` class on the source's inputs. -/
def isDigitCh (c : Char) : Bool := '0' ≤ c && c ≤ '9'

/-- Core of one anchored attempt of `\s*(\d+\.?\d{0,2})` (after the optional
`$` was handled): maximal whitespace, then at least one digit, then an
optional dot with up to two fraction digits.  Returns the capture group and
the remaining characters. -/
def matchNum1 (s : List Char) : Option (List Char × List Char) :=
  let s2 := s.dropWhile isSpaceCh
  let ds := s2.takeWhile isDigitCh
  if ds.isEmpty then none
  else
    match s2.dropWhile isDigitCh with
    | '.' :: s4 =>
      some (ds ++ '.' :: (s4.takeWhile isDigitCh).take 2,
            s4.drop ((s4.takeWhile isDigitCh).take 2).length)
    | s3 => some (ds, s3)

/-- One anchored attempt of `\$?\s*(\d+\.?\d{0,2})` at the head of `s`.
(When `$` is present but no digit follows the whitespace, re-trying without
the `$` also fails, since `$` is neither whitespace nor a digit — so
consuming the `$` up front is faithful to the backtracking engine.) -/
def matchPrice1 (s : List Char) : Option (List Char × List Char) :=
  match s with
  | '$' :: t => matchNum1 t
  | _ => matchNum1 s

/-- Core of one anchored attempt of `\s*(\d+\.\d{2})` (after the mandatory
`$`): maximal whitespace, at least one digit, a dot, exactly two digits.
(Backtracking inside `\d+` cannot rescue a failed attempt: the maximal digit
run is followed by a non-digit, and any shorter run is followed by a digit,
not a dot.) -/
def matchNum2 (s : List Char) : Option (List Char × List Char) :=
  let s2 := s.dropWhile isSpaceCh
  let ds := s2.takeWhile isDigitCh
  if ds.isEmpty then none
  else
    match s2.dropWhile isDigitCh with
    | '.' :: a :: b :: s5 =>
      if isDigitCh a && isDigitCh b then some (ds ++ ['.', a, b], s5) else none
    | _ => none

/-- One anchored attempt of `\$\s*(\d+\.\d{2})` at the head of `s`. -/
def matchPrice2 (s : List Char) : Option (List Char × List Char) :=
  match s with
  | '$' :: t => matchNum2 t
  | _ => none

lemma length_dropWhile_le (p : Char → Bool) (l : List Char) :
    (l.dropWhile p).length ≤ l.length := by
  conv_rhs => rw [← List.takeWhile_append_dropWhile p l]
  rw [List.length_append]
  omega

lemma length_dropWhile_lt (p : Char → Bool) (l : List Char)
    (h : ¬(l.takeWhile p).isEmpty) : (l.dropWhile p).length < l.length := by
  have hlen : (l.takeWhile p).length + (l.dropWhile p).length = l.length := by
    rw [← List.length_append, List.takeWhile_append_dropWhile]
  have : (l.takeWhile p).length ≠ 0 := by
    intro h0
    exact h (by rwa [List.isEmpty_iff, ← List.length_eq_zero])
  omega

lemma matchNum1_rest_lt (s g r : List Char) (h : matchNum1 s = some (g, r)) :
    r.length < s.length := by
  have hws : (s.dropWhile isSpaceCh).length ≤ s.length := length_dropWhile_le _ _
  simp only [matchNum1] at h
  split at h
  · exact absurd h (by simp)
  · rename_i hds
    have hlt : ((s.dropWhile isSpaceCh).dropWhile isDigitCh).length <
        (s.dropWhile isSpaceCh).length := length_dropWhile_lt _ _ hds
    split at h
    · rename_i s4 heq
      simp only [Option.some_inj, Prod.mk.injEq] at h
      have hr : r.length ≤ s4.length := by
        rw [← h.2]
        simp [List.length_drop]
      rw [heq] at hlt
      simp only [List.length_cons] at hlt
      omega
    · rename_i hne
      simp only [Option.some_inj, Prod.mk.injEq] at h
      rw [← h.2]
      omega

lemma matchNum2_rest_lt (s g r : List Char) (h : matchNum2 s = some (g, r)) :
    r.length < s.length := by
  have hws : (s.dropWhile isSpaceCh).length ≤ s.length := length_dropWhile_le _ _
  simp only [matchNum2] at h
  split at h
  · exact absurd h (by simp)
  · rename_i hds
    have hlt : ((s.dropWhile isSpaceCh).dropWhile isDigitCh).length <
        (s.dropWhile isSpaceCh).length := length_dropWhile_lt _ _ hds
    split at h
    · rename_i a b s5 heq
      split at h
      · simp only [Option.some_inj, Prod.mk.injEq] at h
        rw [heq] at hlt
        simp only [List.length_cons] at hlt
        rw [← h.2]
        omega
      · exact absurd h (by simp)
    · exact absurd h (by simp)

lemma matchPrice1_rest_lt (s g r : List Char) (h : matchPrice1 s = some (g, r)) :
    r.length < s.length := by
  unfold matchPrice1 at h
  split at h
  · rename_i t
    have := matchNum1_rest_lt t g r h
    simp only [List.length_cons]
    omega
  · exact matchNum1_rest_lt s g r h

lemma matchPrice2_rest_lt (s g r : List Char) (h : matchPrice2 s = some (g, r)) :
    r.length < s.length := by
  unfold matchPrice2 at h
  split at h
  · rename_i t
    have := matchNum2_rest_lt t g r h
    simp only [List.length_cons]
    omega
  · exact absurd h (by simp)

/-- Fuel-bounded scan for `\$?\s*(\d+\.?\d{0,2})`: leftmost non-overlapping
matches, resuming after each match, advancing one character on failure.  The
fuel only serves structural recursion; `findall1Go_congr` below shows any
fuel of at least the text's length gives the same (fuel-free) scan. -/
def findall1Go : ℕ → List Char → List (List Char)
  | 0, _ => []
  | _ + 1, [] => []
  | fuel + 1, c :: cs =>
    match matchPrice1 (c :: cs) with
    | some (g, r) => g :: findall1Go fuel r
    | none => findall1Go fuel cs

/-- The `re.findall` scan for `\$?\s*(\d+\.?\d{0,2})`. -/
def findall1 (s : List Char) : List (List Char) := findall1Go s.length s

/-- Fuel-bounded scan for `\$\s*(\d+\.\d{2})`. -/
def findall2Go : ℕ → List Char → List (List Char)
  | 0, _ => []
  | _ + 1, [] => []
  | fuel + 1, c :: cs =>
    match matchPrice2 (c :: cs) with
    | some (g, r) => g :: findall2Go fuel r
    | none => findall2Go fuel cs

/-- The `re.findall` scan for `\$\s*(\d+\.\d{2})`. -/
def findall2 (s : List Char) : List (List Char) := findall2Go s.length s

lemma findall1Go_nil (fuel : ℕ) : findall1Go fuel [] = [] := by
  cases fuel <;> rfl

lemma findall2Go_nil (fuel : ℕ) : findall2Go fuel [] = [] := by
  cases fuel <;> rfl

lemma findall1Go_congr :
    ∀ (fuel : ℕ) (s : List Char) (fuel' : ℕ), s.length ≤ fuel → s.length ≤ fuel' →
      findall1Go fuel s = findall1Go fuel' s := by
  intro fuel
  induction fuel with
  | zero =>
    intro s fuel' hle _
    have hs : s = [] := List.length_eq_zero.mp (by omega)
    subst hs
    rw [findall1Go_nil, findall1Go_nil]
  | succ fuel ih =>
    intro s fuel' hle hle'
    rcases s with _ | ⟨c, cs⟩
    · rw [findall1Go_nil, findall1Go_nil]
    · rcases fuel' with _ | fuel'
      · simp at hle'
      · rw [findall1Go, findall1Go]
        rcases hm : matchPrice1 (c :: cs) with _ | ⟨g, r⟩
        · have hlen : cs.length ≤ fuel ∧ cs.length ≤ fuel' := by
            simp only [List.length_cons] at hle hle'
            omega
          simpa using ih cs fuel' hlen.1 hlen.2
        · have hr := matchPrice1_rest_lt _ _ _ hm
          have hlen : r.length ≤ fuel ∧ r.length ≤ fuel' := by
            simp only [List.length_cons] at hr hle hle'
            omega
          simp only [ih r fuel' hlen.1 hlen.2]

lemma findall2Go_congr :
    ∀ (fuel : ℕ) (s : List Char) (fuel' : ℕ), s.length ≤ fuel → s.length ≤ fuel' →
      findall2Go fuel s = findall2Go fuel' s := by
  intro fuel
  induction fuel with
  | zero =>
    intro s fuel' hle _
    have hs : s = [] := List.length_eq_zero.mp (by omega)
    subst hs
    rw [findall2Go_nil, findall2Go_nil]
  | succ fuel ih =>
    intro s fuel' hle hle'
    rcases s with _ | ⟨c, cs⟩
    · rw [findall2Go_nil, findall2Go_nil]
    · rcases fuel' with _ | fuel'
      · simp at hle'
      · rw [findall2Go, findall2Go]
        rcases hm : matchPrice2 (c :: cs) with _ | ⟨g, r⟩
        · have hlen : cs.length ≤ fuel ∧ cs.length ≤ fuel' := by
            simp only [List.length_cons] at hle hle'
            omega
          simpa using ih cs fuel' hlen.1 hlen.2
        · have hr := matchPrice2_rest_lt _ _ _ hm
          have hlen : r.length ≤ fuel ∧ r.length ≤ fuel' := by
            simp only [List.length_cons] at hr hle hle'
            omega
          simp only [ih r fuel' hlen.1 hlen.2]

/-- Numeric value of a digit run (how Python's `float` reads the integer or
fraction part of a match). -/
def digitsVal (cs : List Char) : ℕ :=
  cs.foldl (fun acc c => 10 * acc + (c.toNat - '0'.toNat)) 0

/-- Python's `float` on a captured group (shape `\d+` or `\d+[.]\d{0,2}`),
read as an exact decimal. -/
def parsePriceChars (cs : List Char) : ℚ :=
  (digitsVal (cs.takeWhile isDigitCh) : ℚ) +
    (digitsVal ((cs.dropWhile isDigitCh).drop 1) : ℚ) /
      10 ^ ((cs.dropWhile isDigitCh).drop 1).length

/-- The extraction-time bound of `_extract_prices_from_soup`:
`0.50 < price < 200`, applied in every layer. -/
def priceOk (p : ℚ) : Bool := decide ((0.50 : ℚ) < p ∧ p < 200)

/-- Python's `text.replace(',', '')`. -/
def pyReplaceComma (l : List Char) : List Char := l.filter (fun c => c != ',')

/-- Per element text: strip commas, run the first regex, parse each group and
keep it when it passes the bound (lines 136-145). -/
def admitted1 (text : String) : List ℚ :=
  (findall1 (pyReplaceComma text.data)).filterMap
    (fun g => if priceOk (parsePriceChars g) then some (parsePriceChars g) else none)

/-- The fixed ordered selector list of `_extract_prices_from_soup`
(lines 121-131). -/
def price_selectors : List String :=
  ["[data-automation-id=\"product-price\"]",
   ".price-current",
   "[itemprop=\"price\"]",
   "[data-testid=\"price\"]",
   ".price",
   "[class*=\"price\"]",
   "[class*=\"Price\"]",
   "span[class*=\"currency\"]",
   "[data-price]"]

/-- Observable content of a parsed page (`BeautifulSoup` object): the element
texts each selector matches, the parsed price of each `ld+json` script
(`none` when `json.loads`/field access/`float` fails, following the
`try/except: continue`), and the full rendered text. -/
structure Soup where
  select : String → List String
  json_ld : List (Option ℚ)
  all_text : String

/-- Candidates one selector contributes: the texts of its first 15 matched
elements (`price_elements[:15]`, line 135), each yielding all of its admitted
regex matches. -/
def selector_prices (soup : Soup) (sel : String) : List ℚ :=
  ((soup.select sel).take 15).flatMap admitted1

/-- Layer 1 of `_extract_prices_from_soup` (lines 133-145). -/
def selector_layer (soup : Soup) : List ℚ :=
  price_selectors.flatMap (selector_prices soup)

/-- Layer 2 of `_extract_prices_from_soup` (lines 148-163): structured
`ld+json` offers, bound-checked. -/
def json_ld_layer (soup : Soup) : List ℚ :=
  soup.json_ld.filterMap (fun o =>
    match o with
    | some p => if priceOk p then some p else none
    | none => none)

/-- Layer 3 of `_extract_prices_from_soup` (lines 165-175): the stricter
pattern over the full text, first 20 matches, bound-checked. -/
def free_text_layer (soup : Soup) : List ℚ :=
  ((findall2 soup.all_text.data).take 20).filterMap
    (fun g => if priceOk (parsePriceChars g) then some (parsePriceChars g) else none)

/-- Method `RealTimeScraper._extract_prices_from_soup`: all three layers, in
source order, unioned by concatenation. -/
def extract_prices_from_soup (soup : Soup) : List ℚ :=
  selector_layer soup ++ json_ld_layer soup ++ free_text_layer soup

lemma mem_admitted1_bound {p : ℚ} {t : String} (h : p ∈ admitted1 t) :
    0.50 < p ∧ p < 200 := by
  simp only [admitted1, List.mem_filterMap] at h
  obtain ⟨g, _, hg⟩ := h
  split at hg
  · rename_i hok
    rw [priceOk, decide_eq_true_eq] at hok
    simp only [Option.some_inj] at hg
    rwa [hg] at hok
  · exact absurd hg (by simp)

lemma mem_selector_layer_bound {p : ℚ} {soup : Soup} (h : p ∈ selector_layer soup) :
    0.50 < p ∧ p < 200 := by
  simp only [selector_layer, selector_prices, List.mem_flatMap] at h
  obtain ⟨_, _, _, _, hp⟩ := h
  exact mem_admitted1_bound hp

lemma mem_json_ld_layer_bound {p : ℚ} {soup : Soup} (h : p ∈ json_ld_layer soup) :
    0.50 < p ∧ p < 200 := by
  simp only [json_ld_layer, List.mem_filterMap] at h
  obtain ⟨o, _, ho⟩ := h
  match o with
  | none => exact absurd ho (by simp)
  | some q =>
    simp only at ho
    split at ho
    · rename_i hok
      rw [priceOk, decide_eq_true_eq] at hok
      simp only [Option.some_inj] at ho
      rwa [ho] at hok
    · exact absurd ho (by simp)

lemma mem_free_text_layer_bound {p : ℚ} {soup : Soup} (h : p ∈ free_text_layer soup) :
    0.50 < p ∧ p < 200 := by
  simp only [free_text_layer, List.mem_filterMap] at h
  obtain ⟨g, _, hg⟩ := h
  split at hg
  · rename_i hok
    rw [priceOk, decide_eq_true_eq] at hok
    simp only [Option.some_inj] at hg
    rwa [hg] at hok
  · exact absurd hg (by simp)

/-- C4: every numeric candidate the extractor outputs satisfies the strict
bound `0.50 < value < 200.00`; the bound holds layer by layer (markup
selectors, structured data, free text), so it is enforced at extraction
time, before any category filtering sees the pool. -/
theorem C4_extraction_bound (soup : Soup) :
    (∀ p ∈ selector_layer soup, 0.50 < p ∧ p < 200) ∧
    (∀ p ∈ json_ld_layer soup, 0.50 < p ∧ p < 200) ∧
    (∀ p ∈ free_text_layer soup, 0.50 < p ∧ p < 200) ∧
    (∀ p ∈ extract_prices_from_soup soup, 0.50 < p ∧ p < 200) := by
  refine ⟨fun p hp => mem_selector_layer_bound hp,
          fun p hp => mem_json_ld_layer_bound hp,
          fun p hp => mem_free_text_layer_bound hp,
          fun p hp => ?_⟩
  rw [extract_prices_from_soup] at hp
  rcases List.mem_append.mp hp with hp1 | hp3
  · rcases List.mem_append.mp hp1 with hp1 | hp2
    · exact mem_selector_layer_bound hp1
    · exact mem_json_ld_layer_bound hp2
  · exact mem_free_text_layer_bound hp3

/-- Test page whose structured-data layer carries one well-formed offer. -/
def soupOffer : Soup := ⟨fun _ => [], [some 1.99], ""⟩

/-- Witness for C4: the structured-data price 1.99 of `soupOffer` is admitted
and lies inside the bound. -/
theorem C4_extraction_bound_witness : (0.50 : ℚ) < 1.99 ∧ (1.99 : ℚ) < 200 :=
  (C4_extraction_bound soupOffer).2.1 1.99
    (by norm_num [json_ld_layer, soupOffer, List.filterMap, priceOk])

/-- A single element text containing sixteen bound-passing prices. -/
def c9text : String := "1 1 1 1 1 1 1 1 1 1 1 1 1 1 1 1"

/-- Test page whose first selector matches exactly one element, whose text is
`c9text`. -/
def soupC9 : Soup :=
  ⟨fun sel =>
    if sel = "[data-automation-id=\"product-price\"]" then [c9text] else [],
   [], ""⟩

lemma parsePriceChars_one : parsePriceChars ['1'] = 1 := by
  have ht : (['1'].takeWhile isDigitCh) = ['1'] := by decide
  have hdr : (['1'].dropWhile isDigitCh) = [] := by decide
  have hd : digitsVal ['1'] = 1 := by decide
  have hd0 : digitsVal [] = 0 := by decide
  rw [parsePriceChars, ht, hdr, hd]
  norm_num [hd0]

lemma priceOk_one : priceOk (1 : ℚ) = true := by
  rw [priceOk, decide_eq_true_eq]
  norm_num

lemma admitted1_c9text : (admitted1 c9text).length = 16 := by
  have hfa : findall1 (pyReplaceComma c9text.data) = List.replicate 16 ['1'] := by decide
  rw [admitted1, hfa]
  simp [List.replicate, parsePriceChars_one, priceOk_one]

/-- Counterexample for C9 as stated: per selector the source caps the matched
elements at 15 (`price_elements[:15]`), not the admitted matches; one element
whose text holds sixteen prices makes its selector contribute sixteen
admitted matches. -/
theorem C9_counterexample :
    ¬ (∀ (soup : Soup), ∀ sel ∈ price_selectors,
        (selector_prices soup sel).length ≤ 15) := by
  intro hall
  have hle := hall soupC9 "[data-automation-id=\"product-price\"]"
    (by simp [price_selectors])
  have hsel : soupC9.select "[data-automation-id=\"product-price\"]" = [c9text] := by
    simp [soupC9]
  have h16 : (selector_prices soupC9 "[data-automation-id=\"product-price\"]").length
      = 16 := by
    rw [selector_prices, hsel]
    simp [admitted1_c9text]
  omega

lemma length_flatMap_le (l : List String) (f : String → List ℚ) (k : ℕ)
    (h : ∀ x ∈ l, (f x).length ≤ k) : (l.flatMap f).length ≤ l.length * k := by
  induction l with
  | nil => simp
  | cons x t ih =>
    rw [List.flatMap_cons, List.length_append, List.length_cons, Nat.succ_mul]
    have hx := h x (List.mem_cons_self _ _)
    have ht := ih (fun y hy => h y (List.mem_cons_of_mem _ hy))
    omega

/-- C9 (amended): in the selector layer the per-selector cap applies to the
matched elements — only the first 15 elements are scanned — while each
scanned element contributes all of its admitted currency-pattern matches; so
a selector whose element texts each yield at most `k` admitted matches
contributes at most `15 * k` candidates, not at most 15. -/
theorem C9_selector_cap_amended (soup : Soup) (sel : String) (k : ℕ)
    (h : ∀ t ∈ (soup.select sel).take 15, (admitted1 t).length ≤ k) :
    (selector_prices soup sel).length ≤ 15 * k := by
  rw [selector_prices]
  have hlen : ((soup.select sel).take 15).length ≤ 15 := by
    rw [List.length_take]
    exact min_le_left _ _
  exact le_trans (length_flatMap_le _ _ k h) (Nat.mul_le_mul_right k hlen)

/-- Witness for C9 (amended): the sixteen-price element of `soupC9` keeps its
selector's contribution within `15 * 16`. -/
theorem C9_selector_cap_amended_witness :
    (selector_prices soupC9 "[data-automation-id=\"product-price\"]").length ≤ 15 * 16 :=
  C9_selector_cap_amended soupC9 "[data-automation-id=\"product-price\"]" 16
    (by
      intro t ht
      have hsel : soupC9.select "[data-automation-id=\"product-price\"]" = [c9text] := by
        simp [soupC9]
      rw [hsel] at ht
      simp at ht
      rw [ht, admitted1_c9text])

end OcrPricer
